import Mathlib

/-!
Verification of the target health state machine of `src/monitor.py`
(`SystemMonitor`): probing, per-target state updates, notification
emission, the Telegram notifier, and the run loop.

The embedding follows `check_target` (lines 81-153), `send_telegram_message`
(lines 155-202), the per-target body of `check_all_targets` (lines 204-254)
and `run` (lines 256-283). Timestamps are integers; each evaluation of a
target receives a single `now`. A `datetime - None` subtraction (possible in
`check_target` line 117 when `last_check` is `None`) is modelled as
`Except.error ()`, since the resulting `TypeError` is not a
`requests.RequestException` and would propagate.
-/

namespace Monitor

/-- `last_status` values stored in `self.status[target_id]["last_status"]`:
"unknown" (initial), "up", "down". -/
inductive Status where
  | unknown
  | up
  | down
deriving DecidableEq, Repr

/-- The per-target configuration fields read by the state machine:
`expected_status_code` (default 200, line 105) and `failure_threshold`
(default 3, line 222). -/
structure TargetCfg where
  expected_status_code : Nat := 200
  failure_threshold : Nat := 3
deriving DecidableEq, Repr

/-- The per-target entry of `self.status` (lines 47-51): `last_status`,
`last_check` (a timestamp or `None`), `failures`. -/
structure TargetState where
  last_status : Status
  last_check : Option Int
  failures : Nat
deriving DecidableEq, Repr

/-- The initial per-target state set in `__init__` (lines 47-51). -/
def initState : TargetState :=
  { last_status := Status.unknown, last_check := none, failures := 0 }

/-- Outcome of the HTTP request in `check_target`: a completed response with
some status code, or a transport failure (`requests.RequestException`). -/
inductive Outcome where
  | reachable (code : Nat)
  | unreachable
deriving DecidableEq, Repr

/-- The availability test of `check_target` line 107: a completed response
whose code equals `expected_status_code`; a transport failure is never
available. -/
def isAvailable (t : TargetCfg) : Outcome → Bool
  | Outcome.reachable c => c == t.expected_status_code
  | Outcome.unreachable => false

/-- Notification events: the Down message built at lines 226-230 (carrying
the evaluation time and the failure count) and the Recovery message built at
lines 118-123 (carrying the downtime in seconds and the recovery time). -/
inductive Event where
  | down (time : Int) (failures : Nat)
  | recovery (downtime : Int) (time : Int)
deriving DecidableEq, Repr

/-- One evaluation of one target: `check_target` (lines 96-153) followed by
the per-target body of `check_all_targets` (lines 213-254).

Success branch (code equals expected, lines 107-135): if `last_status` is
"down", the downtime `now - last_check` is computed (line 117; `error ()`
when `last_check` is `None`) and a Recovery event is emitted; then
`last_status := "up"`, `failures := 0` (lines 133-134) and, back in
`check_all_targets`, `last_check := now` (line 218).

Failure branch (wrong code, line 144, or transport error, line 153):
`last_check := now` (line 218), `failures += 1` (line 221); if
`failures >= failure_threshold` and `last_status != "down"` a Down event is
emitted and `last_status := "down"` (lines 224-233). -/
def checkTargetStep (t : TargetCfg) (s : TargetState) (o : Outcome) (now : Int) :
    Except Unit (TargetState × Option Event) :=
  if isAvailable t o then
    if s.last_status = Status.down then
      match s.last_check with
      | none => Except.error ()
      | some lc =>
          Except.ok ({ last_status := Status.up, last_check := some now, failures := 0 },
            some (Event.recovery (now - lc) now))
    else
      Except.ok ({ last_status := Status.up, last_check := some now, failures := 0 }, none)
  else
    if t.failure_threshold ≤ s.failures + 1 ∧ s.last_status ≠ Status.down then
      Except.ok (⟨Status.down, some now, s.failures + 1⟩,
        some (Event.down now (s.failures + 1)))
    else
      Except.ok (⟨s.last_status, some now, s.failures + 1⟩, none)

/-- A sequence of evaluations of one target, from a given state, recording
the event (if any) emitted by each evaluation. -/
def runSteps (t : TargetCfg) (s : TargetState) :
    List (Outcome × Int) → Except Unit (TargetState × List (Option Event))
  | [] => Except.ok (s, [])
  | (o, n) :: rest =>
      match checkTargetStep t s o n with
      | Except.error e => Except.error e
      | Except.ok (s1, ev) =>
          match runSteps t s1 rest with
          | Except.error e => Except.error e
          | Except.ok (s2, evs) => Except.ok (s2, ev :: evs)

/-- States of a target reachable from initialization by evaluation passes. -/
def Reachable (t : TargetCfg) (s : TargetState) : Prop :=
  ∃ seq out, runSteps t initState seq = Except.ok out ∧ out.1 = s

/-- A sequence of failing evaluations (a contiguous run of failed probes)
at the given times. -/
def failTimes (ts : List Int) : List (Outcome × Int) :=
  ts.map (fun n => (Outcome.unreachable, n))

/-- Whether a step's recorded event is a Down notification. -/
def isDownEvent : Option Event → Bool
  | some (Event.down _ _) => true
  | _ => false

/-! ### Characterization of a single evaluation -/

theorem isAvailable_reachable_iff (t : TargetCfg) (c : Nat) :
    isAvailable t (Outcome.reachable c) = true ↔ c = t.expected_status_code := by
  simp [isAvailable]

theorem checkTargetStep_success_notDown (t : TargetCfg) (s : TargetState) (o : Outcome)
    (now : Int) (h : isAvailable t o = true) (hs : s.last_status ≠ Status.down) :
    checkTargetStep t s o now =
      Except.ok (⟨Status.up, some now, 0⟩, none) := by
  simp [checkTargetStep, h, hs]

theorem checkTargetStep_success_down (t : TargetCfg) (s : TargetState) (o : Outcome)
    (now lc : Int) (h : isAvailable t o = true) (hs : s.last_status = Status.down)
    (hc : s.last_check = some lc) :
    checkTargetStep t s o now =
      Except.ok (⟨Status.up, some now, 0⟩, some (Event.recovery (now - lc) now)) := by
  simp [checkTargetStep, h, hs, hc]

theorem checkTargetStep_fail_trigger (t : TargetCfg) (s : TargetState) (o : Outcome)
    (now : Int) (h : isAvailable t o = false)
    (hthr : t.failure_threshold ≤ s.failures + 1) (hs : s.last_status ≠ Status.down) :
    checkTargetStep t s o now =
      Except.ok (⟨Status.down, some now, s.failures + 1⟩,
        some (Event.down now (s.failures + 1))) := by
  simp [checkTargetStep, h, hthr, hs]

theorem checkTargetStep_fail_quiet (t : TargetCfg) (s : TargetState) (o : Outcome)
    (now : Int) (h : isAvailable t o = false)
    (hn : ¬(t.failure_threshold ≤ s.failures + 1 ∧ s.last_status ≠ Status.down)) :
    checkTargetStep t s o now =
      Except.ok (⟨s.last_status, some now, s.failures + 1⟩, none) := by
  simp only [checkTargetStep, h, Bool.false_eq_true, if_false, if_neg hn]

theorem checkTargetStep_error_iff (t : TargetCfg) (s : TargetState) (o : Outcome) (now : Int) :
    checkTargetStep t s o now = Except.error () ↔
      isAvailable t o = true ∧ s.last_status = Status.down ∧ s.last_check = none := by
  by_cases h : isAvailable t o = true
  · by_cases hs : s.last_status = Status.down
    · cases hc : s.last_check with
      | none => simp [checkTargetStep, h, hs, hc]
      | some lc => simp [checkTargetStep, h, hs, hc]
    · simp [checkTargetStep_success_notDown t s o now h hs, hs]
  · rw [Bool.not_eq_true] at h
    by_cases hn : t.failure_threshold ≤ s.failures + 1 ∧ s.last_status ≠ Status.down
    · simp [checkTargetStep_fail_trigger t s o now h hn.1 hn.2, h]
    · simp [checkTargetStep_fail_quiet t s o now h hn, h]

theorem checkTargetStep_lastCheck (t : TargetCfg) (s : TargetState) (o : Outcome)
    (now : Int) (s1 : TargetState) (ev : Option Event)
    (h : checkTargetStep t s o now = Except.ok (s1, ev)) : s1.last_check = some now := by
  by_cases ha : isAvailable t o = true
  · by_cases hs : s.last_status = Status.down
    · cases hc : s.last_check with
      | none =>
          rw [checkTargetStep, if_pos ha, if_pos hs, hc] at h
          exact absurd h (by simp)
      | some lc =>
          rw [checkTargetStep_success_down t s o now lc ha hs hc] at h
          cases h
          rfl
    · rw [checkTargetStep_success_notDown t s o now ha hs] at h
      cases h
      rfl
  · rw [Bool.not_eq_true] at ha
    by_cases hn : t.failure_threshold ≤ s.failures + 1 ∧ s.last_status ≠ Status.down
    · rw [checkTargetStep_fail_trigger t s o now ha hn.1 hn.2] at h
      cases h
      rfl
    · rw [checkTargetStep_fail_quiet t s o now ha hn] at h
      cases h
      rfl

theorem checkTargetStep_failures (t : TargetCfg) (s : TargetState) (o : Outcome)
    (now : Int) (s1 : TargetState) (ev : Option Event)
    (h : checkTargetStep t s o now = Except.ok (s1, ev)) :
    s1.failures = if isAvailable t o then 0 else s.failures + 1 := by
  by_cases ha : isAvailable t o = true
  · by_cases hs : s.last_status = Status.down
    · cases hc : s.last_check with
      | none =>
          rw [checkTargetStep, if_pos ha, if_pos hs, hc] at h
          exact absurd h (by simp)
      | some lc =>
          rw [checkTargetStep_success_down t s o now lc ha hs hc] at h
          cases h
          simp [ha]
    · rw [checkTargetStep_success_notDown t s o now ha hs] at h
      cases h
      simp [ha]
  · rw [Bool.not_eq_true] at ha
    by_cases hn : t.failure_threshold ≤ s.failures + 1 ∧ s.last_status ≠ Status.down
    · rw [checkTargetStep_fail_trigger t s o now ha hn.1 hn.2] at h
      cases h
      simp [ha]
    · rw [checkTargetStep_fail_quiet t s o now ha hn] at h
      cases h
      simp [ha]

/-! ### Runs of consecutive failed probes -/

theorem checkTargetStep_unreachable (t : TargetCfg) (s : TargetState) (now : Int) :
    checkTargetStep t s Outcome.unreachable now =
      if t.failure_threshold ≤ s.failures + 1 ∧ s.last_status ≠ Status.down then
        Except.ok (⟨Status.down, some now, s.failures + 1⟩,
          some (Event.down now (s.failures + 1)))
      else
        Except.ok (⟨s.last_status, some now, s.failures + 1⟩, none) := rfl

/-- Inversion of `runSteps` on a nonempty sequence. -/
theorem runSteps_cons_inv (t : TargetCfg) (s : TargetState) (o : Outcome) (n : Int)
    (rest : List (Outcome × Int)) (s' : TargetState) (evs : List (Option Event))
    (h : runSteps t s ((o, n) :: rest) = Except.ok (s', evs)) :
    ∃ s1 ev evs2, checkTargetStep t s o n = Except.ok (s1, ev) ∧
      runSteps t s1 rest = Except.ok (s', evs2) ∧ evs = ev :: evs2 := by
  rw [runSteps] at h
  cases hstep : checkTargetStep t s o n with
  | error e => simp [hstep] at h
  | ok p =>
      obtain ⟨s1, ev⟩ := p
      simp only [hstep] at h
      cases hrec : runSteps t s1 rest with
      | error e => simp [hrec] at h
      | ok q =>
          obtain ⟨s2, evs2⟩ := q
          simp only [hrec, Except.ok.injEq, Prod.mk.injEq] at h
          exact ⟨s1, ev, evs2, rfl, h.1 ▸ hrec, h.2.symm⟩

/-- During a contiguous run of failed probes starting from state `s`, the
evaluation at position `i` emits a Down event exactly when the run began with
`last_status` not Down and `i` is the first position where the failure
counter reaches the threshold. -/
theorem failRun_down_iff (t : TargetCfg) (ts : List Int) :
    ∀ (s s' : TargetState) (evs : List (Option Event)),
      runSteps t s (failTimes ts) = Except.ok (s', evs) →
      ∀ (i : Nat) (hi : i < evs.length),
        isDownEvent evs[i] = true ↔
          (s.last_status ≠ Status.down ∧ t.failure_threshold ≤ s.failures + i + 1 ∧
            ∀ j < i, s.failures + j + 1 < t.failure_threshold) := by
  induction ts with
  | nil =>
      intro s s' evs h i hi
      simp only [failTimes, List.map_nil, runSteps] at h
      cases h
      simp at hi
  | cons n ts ih =>
      intro s s' evs h i hi
      rw [show failTimes (n :: ts) = (Outcome.unreachable, n) :: failTimes ts from rfl] at h
      obtain ⟨s1, ev, evs2, hstep, hrec, hevs⟩ := runSteps_cons_inv _ _ _ _ _ _ _ h
      subst hevs
      rw [checkTargetStep_unreachable] at hstep
      by_cases hc : t.failure_threshold ≤ s.failures + 1 ∧ s.last_status ≠ Status.down
      · rw [if_pos hc] at hstep
        simp only [Except.ok.injEq, Prod.mk.injEq] at hstep
        obtain ⟨hs1, hev⟩ := hstep
        subst hs1
        subst hev
        match i, hi with
        | 0, hi =>
            simp only [List.getElem_cons_zero, isDownEvent]
            constructor
            · intro _
              exact ⟨hc.2, by omega, by omega⟩
            · intro _; trivial
        | k + 1, hi =>
            simp only [List.getElem_cons_succ]
            have hk := ih _ _ _ hrec k (by simpa using Nat.lt_of_succ_lt_succ hi)
            dsimp only at hk
            constructor
            · intro hdown
              have := (hk.mp hdown).1
              simp at this
            · rintro ⟨-, -, hall⟩
              have h0 := hall 0 (by omega)
              omega
      · rw [if_neg hc] at hstep
        simp only [Except.ok.injEq, Prod.mk.injEq] at hstep
        obtain ⟨hs1, hev⟩ := hstep
        subst hs1
        subst hev
        match i, hi with
        | 0, hi =>
            simp only [List.getElem_cons_zero, isDownEvent]
            constructor
            · intro hfalse; cases hfalse
            · rintro ⟨hst, hle, -⟩
              exact absurd ⟨by omega, hst⟩ hc
        | k + 1, hi =>
            simp only [List.getElem_cons_succ]
            have hk := ih _ _ _ hrec k (by simpa using Nat.lt_of_succ_lt_succ hi)
            dsimp only at hk
            rw [hk]
            constructor
            · rintro ⟨hst, hle, hall⟩
              refine ⟨hst, by omega, ?_⟩
              intro j hj
              match j, hj with
              | 0, hj =>
                  by_contra hn
                  exact hc ⟨by omega, hst⟩
              | j' + 1, hj =>
                  have := hall j' (by omega)
                  omega
            · rintro ⟨hst, hle, hall⟩
              refine ⟨hst, by omega, ?_⟩
              intro j hj
              have := hall (j + 1) (by omega)
              omega

/-! ### Sequences whose failure runs stay below the threshold -/

/-- `failsBounded t k seq` holds when, starting with `k` consecutive failures
already accrued, every contiguous run of failed probes in `seq` keeps the
failure counter strictly below `t.failure_threshold`. -/
def failsBounded (t : TargetCfg) : Nat → List (Outcome × Int) → Bool
  | _, [] => true
  | k, (o, _) :: rest =>
      if isAvailable t o then failsBounded t 0 rest
      else decide (k + 1 < t.failure_threshold) && failsBounded t (k + 1) rest

/-- A target whose probes never accumulate `failure_threshold` consecutive
failures never reaches status Down and never emits any event. -/
theorem boundedRun_no_down (t : TargetCfg) (seq : List (Outcome × Int)) :
    ∀ s : TargetState, s.last_status ≠ Status.down →
      failsBounded t s.failures seq = true →
      ∀ (s' : TargetState) (evs : List (Option Event)),
        runSteps t s seq = Except.ok (s', evs) →
        s'.last_status ≠ Status.down ∧ ∀ ev ∈ evs, ev = none := by
  induction seq with
  | nil =>
      intro s hs hb s' evs h
      rw [runSteps] at h
      simp only [Except.ok.injEq, Prod.mk.injEq] at h
      obtain ⟨h1, h2⟩ := h
      subst h1
      subst h2
      exact ⟨hs, by intro ev hev; cases hev⟩
  | cons p rest ih =>
      obtain ⟨o, n⟩ := p
      intro s hs hb s' evs h
      obtain ⟨s1, ev, evs2, hstep, hrec, rfl⟩ := runSteps_cons_inv _ _ _ _ _ _ _ h
      rw [failsBounded] at hb
      by_cases ha : isAvailable t o = true
      · rw [if_pos ha] at hb
        rw [checkTargetStep_success_notDown t s o n ha hs] at hstep
        simp only [Except.ok.injEq, Prod.mk.injEq] at hstep
        obtain ⟨hs1, hev⟩ := hstep
        subst hs1
        subst hev
        have hrest := ih _ (by simp) hb _ _ hrec
        refine ⟨hrest.1, ?_⟩
        intro x hx
        rcases List.mem_cons.mp hx with rfl | hx'
        · rfl
        · exact hrest.2 x hx'
      · rw [if_neg ha] at hb
        rw [Bool.and_eq_true, decide_eq_true_eq] at hb
        rw [Bool.not_eq_true] at ha
        have hquiet : ¬(t.failure_threshold ≤ s.failures + 1 ∧
            s.last_status ≠ Status.down) := by
          rintro ⟨hle, -⟩
          omega
        rw [checkTargetStep_fail_quiet t s o n ha hquiet] at hstep
        simp only [Except.ok.injEq, Prod.mk.injEq] at hstep
        obtain ⟨hs1, hev⟩ := hstep
        subst hs1
        subst hev
        have hrest := ih _ (by simpa using hs) (by simpa using hb.2) _ _ hrec
        refine ⟨hrest.1, ?_⟩
        intro x hx
        rcases List.mem_cons.mp hx with rfl | hx'
        · rfl
        · exact hrest.2 x hx'

/-! ### The reachability invariant: a Down state has a recorded timestamp -/

theorem runSteps_preserves_check (t : TargetCfg) (seq : List (Outcome × Int)) :
    ∀ s : TargetState, (s.last_status = Status.down → ∃ c, s.last_check = some c) →
      ∀ (s' : TargetState) (evs : List (Option Event)),
        runSteps t s seq = Except.ok (s', evs) →
        s'.last_status = Status.down → ∃ c, s'.last_check = some c := by
  induction seq with
  | nil =>
      intro s hinv s' evs h
      rw [runSteps] at h
      simp only [Except.ok.injEq, Prod.mk.injEq] at h
      exact h.1 ▸ hinv
  | cons p rest ih =>
      obtain ⟨o, n⟩ := p
      intro s hinv s' evs h
      obtain ⟨s1, ev, evs2, hstep, hrec, -⟩ := runSteps_cons_inv _ _ _ _ _ _ _ h
      have h1 := checkTargetStep_lastCheck _ _ _ _ _ _ hstep
      exact ih s1 (fun _ => ⟨n, h1⟩) _ _ hrec

theorem reachable_down_has_check (t : TargetCfg) (s : TargetState)
    (h : Reachable t s) : s.last_status = Status.down → ∃ c, s.last_check = some c := by
  obtain ⟨seq, out, hrun, hout⟩ := h
  obtain ⟨s', evs⟩ := out
  cases hout
  exact runSteps_preserves_check t seq initState (by intro hd; cases hd) s' evs hrun

/-! ### Order of state commits and notification sends -/

/-- Observable per-target actions: a call to `send_telegram_message` and the
assignments into `self.status[target_id]`. -/
inductive Action where
  | send (e : Event)
  | setStatus (st : Status)
  | setFailures (n : Nat)
  | setLastCheck (time : Int)
deriving DecidableEq, Repr

/-- The sends and state assignments performed by one evaluation of one
target, in source order.

Successful probe with `last_status == "down"` (lines 115-134, then 218):
`send recovery` (line 124), `last_status := "up"` (line 133),
`failures := 0` (line 134), `last_check := now` (line 218).

Successful probe otherwise: the same three assignments, no send.

Failed probe (lines 218-233): `last_check := now` (line 218),
`failures += 1` (line 221), then, when the threshold is reached with
`last_status != "down"`: `send down` (line 232), `last_status := "down"`
(line 233). -/
def evalActions (t : TargetCfg) (s : TargetState) (o : Outcome) (now : Int) :
    Except Unit (List Action) :=
  if isAvailable t o then
    if s.last_status = Status.down then
      match s.last_check with
      | none => Except.error ()
      | some lc =>
          Except.ok [Action.send (Event.recovery (now - lc) now),
            Action.setStatus Status.up, Action.setFailures 0, Action.setLastCheck now]
    else
      Except.ok [Action.setStatus Status.up, Action.setFailures 0,
        Action.setLastCheck now]
  else
    if t.failure_threshold ≤ s.failures + 1 ∧ s.last_status ≠ Status.down then
      Except.ok [Action.setLastCheck now, Action.setFailures (s.failures + 1),
        Action.send (Event.down now (s.failures + 1)), Action.setStatus Status.down]
    else
      Except.ok [Action.setLastCheck now, Action.setFailures (s.failures + 1)]

/-- Effect of one assignment on the stored state (a send changes nothing). -/
def applyAction (s : TargetState) : Action → TargetState
  | Action.send _ => s
  | Action.setStatus st => ⟨st, s.last_check, s.failures⟩
  | Action.setFailures n => ⟨s.last_status, s.last_check, n⟩
  | Action.setLastCheck c => ⟨s.last_status, some c, s.failures⟩

/-- The stored state after a sequence of actions. -/
def applyActions (s : TargetState) (acts : List Action) : TargetState :=
  acts.foldl applyAction s

/-- Replaying the action sequence of an evaluation yields exactly the state
computed by `checkTargetStep`. -/
theorem evalActions_consistent (t : TargetCfg) (s : TargetState) (o : Outcome)
    (now : Int) :
    (evalActions t s o now).map (applyActions s) =
      (checkTargetStep t s o now).map (fun p => p.1) := by
  by_cases ha : isAvailable t o = true
  · by_cases hs : s.last_status = Status.down
    · cases hc : s.last_check with
      | none => simp [evalActions, checkTargetStep, ha, hs, hc, Except.map]
      | some lc =>
          simp [evalActions, checkTargetStep, ha, hs, hc, applyActions, applyAction,
            Except.map, List.foldl_cons, List.foldl_nil]
    · simp [evalActions, checkTargetStep, ha, hs, applyActions, applyAction,
        Except.map, List.foldl_cons, List.foldl_nil]
  · rw [Bool.not_eq_true] at ha
    by_cases hn : t.failure_threshold ≤ s.failures + 1 ∧ s.last_status ≠ Status.down
    · simp [evalActions, checkTargetStep, ha, hn, applyActions, applyAction,
        Except.map, List.foldl_cons, List.foldl_nil]
    · simp [evalActions, checkTargetStep, ha, hn, applyActions, applyAction,
        Except.map, List.foldl_cons, List.foldl_nil]

/-! ### The Telegram notifier -/

/-- Outcome of the HTTP POST in `send_telegram_message` (line 179): a
completed response with a status code and body text, or a raised
exception. -/
inductive SendTransport where
  | response (code : Nat) (text : String)
  | exception (msg : String)
deriving DecidableEq, Repr

/-- `send_telegram_message` (lines 155-202): `false` when the bot token or
chat id is empty (lines 165-170), when the POST raises (lines 196-202,
every exception is caught), or when the response code is not 200 (lines
187-194); `true` only for a 200 response (lines 181-186). -/
def send_telegram_message (token chatId : String) (tr : SendTransport) : Bool :=
  if token = "" ∨ chatId = "" then false
  else
    match tr with
    | SendTransport.response code _ => code == 200
    | SendTransport.exception _ => false

/-- One evaluation of one target together with the notification attempt made
for the emitted event (lines 124 and 232); the third component is the
notifier's return value when a send was attempted. The code discards that
value, so it feeds nothing back into the stored state. -/
def checkTargetNotify (t : TargetCfg) (token chatId : String) (tr : SendTransport)
    (s : TargetState) (o : Outcome) (now : Int) :
    Except Unit (TargetState × Option Event × Option Bool) :=
  match checkTargetStep t s o now with
  | Except.error e => Except.error e
  | Except.ok (s1, none) => Except.ok (s1, none, none)
  | Except.ok (s1, some ev) =>
      Except.ok (s1, some ev, some (send_telegram_message token chatId tr))

/-! ### Exceptions and the run loop -/

/-- What the body of `check_target`'s `try` produces: a completed response,
a `requests.RequestException`, or an exception of any other class (one not
matched by the handler at line 146). -/
inductive ProbeResult where
  | reachable (code : Nat)
  | requestException
  | otherException
deriving DecidableEq, Repr

/-- A single target evaluation when the probe may raise: a
`requests.RequestException` is caught at line 146 and classified as a failed
probe; an exception of any other class propagates out of `check_target` and
out of `check_all_targets`. -/
def checkTargetExn (t : TargetCfg) (s : TargetState) (p : ProbeResult) (now : Int) :
    Except Unit (TargetState × Option Event) :=
  match p with
  | ProbeResult.reachable c => checkTargetStep t s (Outcome.reachable c) now
  | ProbeResult.requestException => checkTargetStep t s Outcome.unreachable now
  | ProbeResult.otherException => Except.error ()

/-- How the `while True` loop of `run` ends: `KeyboardInterrupt` caught at
line 273, or any other exception escaping a pass, caught at line 278. -/
inductive RunExit where
  | interrupted
  | errorExit
deriving DecidableEq, Repr

/-- An iteration of the run loop: an external interrupt arrives, or a pass
evaluates the target on a probe result at a time. -/
inductive Tick where
  | interrupt
  | pass (p : ProbeResult) (now : Int)
deriving DecidableEq, Repr

/-- The `while True` loop of `run` (lines 269-283). Both handlers sit
outside the loop: after catching either a `KeyboardInterrupt` (line 273) or
any other exception (line 278), control does not re-enter the loop. -/
def runLoop (t : TargetCfg) : TargetState → List Tick → TargetState × Option RunExit
  | s, [] => (s, none)
  | s, Tick.interrupt :: _ => (s, some RunExit.interrupted)
  | s, Tick.pass p now :: rest =>
      match checkTargetExn t s p now with
      | Except.error _ => (s, some RunExit.errorExit)
      | Except.ok (s1, _) => runLoop t s1 rest

/-! ## Claim theorems -/

/-- C1: for every target and every contiguous run of failed probes, a Down
notification is emitted at most once: it fires exactly on the evaluation
where `consecutive_failures` first reaches `failure_threshold` while
`last_status` is not Down, and never again however long the run continues
(in particular never when the run starts from a Down state). -/
theorem down_fires_once_per_fail_run (t : TargetCfg) (s s' : TargetState)
    (ts : List Int) (evs : List (Option Event))
    (h : runSteps t s (failTimes ts) = Except.ok (s', evs)) :
    (∀ (i j : Nat) (hi : i < evs.length) (hj : j < evs.length),
        isDownEvent evs[i] = true → isDownEvent evs[j] = true → i = j) ∧
    (s.last_status = Status.down →
        ∀ (i : Nat) (hi : i < evs.length), isDownEvent evs[i] = false) ∧
    (∀ (i : Nat) (hi : i < evs.length),
        isDownEvent evs[i] = true ↔
          (s.last_status ≠ Status.down ∧ t.failure_threshold ≤ s.failures + i + 1 ∧
            ∀ j < i, s.failures + j + 1 < t.failure_threshold)) := by
  have key := failRun_down_iff t ts s s' evs h
  refine ⟨?_, ?_, key⟩
  · intro i j hi hj hdi hdj
    obtain ⟨-, hle_i, hfirst_i⟩ := (key i hi).mp hdi
    obtain ⟨-, hle_j, hfirst_j⟩ := (key j hj).mp hdj
    by_contra hne
    rcases Nat.lt_or_ge i j with hij | hij
    · have := hfirst_j i hij
      omega
    · have hji : j < i := by omega
      have := hfirst_i j hji
      omega
  · intro hdown i hi
    rw [← Bool.not_eq_true]
    intro hd
    exact ((key i hi).mp hd).1 hdown

/-- C1 witness: with threshold 3, four consecutive failures emit the Down
event exactly at the third evaluation. -/
theorem down_fires_once_per_fail_run_witness :
    isDownEvent (([none, none, some (Event.down 30 3), none] :
      List (Option Event))[2]) = true := by
  have h := down_fires_once_per_fail_run ⟨200, 3⟩ initState
    ⟨Status.down, some 40, 4⟩ [10, 20, 30, 40]
    [none, none, some (Event.down 30 3), none] rfl
  exact (h.2.2 2 (by decide)).mpr ⟨by decide, by decide, by decide⟩

/-- C2: a failed evaluation increments the failures counter by exactly 1
and a successful evaluation resets it to 0, so after any successful
evaluation `consecutive_failures` equals 0. -/
theorem failures_increment_and_reset (t : TargetCfg) (s : TargetState)
    (o : Outcome) (now : Int) :
    (isAvailable t o = false → ∀ (s' : TargetState) (ev : Option Event),
        checkTargetStep t s o now = Except.ok (s', ev) →
        s'.failures = s.failures + 1) ∧
    (isAvailable t o = true → ∀ (s' : TargetState) (ev : Option Event),
        checkTargetStep t s o now = Except.ok (s', ev) → s'.failures = 0) := by
  constructor
  · intro ha s' ev h
    have hf := checkTargetStep_failures t s o now s' ev h
    rw [ha] at hf
    simpa using hf
  · intro ha s' ev h
    have hf := checkTargetStep_failures t s o now s' ev h
    rw [ha] at hf
    simpa using hf

/-- C2 witness: from the initial state, one failed evaluation makes the
counter 1, and a subsequent successful evaluation resets it to 0. -/
theorem failures_increment_and_reset_witness :
    (⟨Status.unknown, some (0 : Int), 1⟩ : TargetState).failures =
        initState.failures + 1 ∧
    (⟨Status.up, some (5 : Int), 0⟩ : TargetState).failures = 0 := by
  constructor
  · exact (failures_increment_and_reset ⟨200, 3⟩ initState
      Outcome.unreachable 0).1 rfl ⟨Status.unknown, some 0, 1⟩ none rfl
  · exact (failures_increment_and_reset ⟨200, 3⟩ ⟨Status.unknown, some 0, 1⟩
      (Outcome.reachable 200) 5).2 rfl ⟨Status.up, some 5, 0⟩ none rfl

/-- C3: in every state reachable from initialization, a Recovery
notification is emitted exactly when a successful probe is evaluated while
`last_status` is Down; a successful probe with any other stored status
(Unknown or Up) emits nothing, so the first-ever success (Unknown to Up,
from the initial state) emits no notification. -/
theorem recovery_iff_down_success (t : TargetCfg) (s : TargetState) (o : Outcome)
    (now : Int) (hreach : Reachable t s) :
    ((∃ (s' : TargetState) (d rt : Int),
        checkTargetStep t s o now = Except.ok (s', some (Event.recovery d rt))) ↔
      (isAvailable t o = true ∧ s.last_status = Status.down)) ∧
    (isAvailable t o = true → s.last_status ≠ Status.down →
      checkTargetStep t s o now = Except.ok (⟨Status.up, some now, 0⟩, none)) := by
  constructor
  · constructor
    · rintro ⟨s', d, rt, h⟩
      by_cases ha : isAvailable t o = true
      · by_cases hs : s.last_status = Status.down
        · exact ⟨ha, hs⟩
        · rw [checkTargetStep_success_notDown t s o now ha hs] at h
          simp at h
      · rw [Bool.not_eq_true] at ha
        by_cases hn : t.failure_threshold ≤ s.failures + 1 ∧
            s.last_status ≠ Status.down
        · rw [checkTargetStep_fail_trigger t s o now ha hn.1 hn.2] at h
          simp at h
        · rw [checkTargetStep_fail_quiet t s o now ha hn] at h
          simp at h
    · rintro ⟨ha, hs⟩
      obtain ⟨lc, hc⟩ := reachable_down_has_check t s hreach hs
      exact ⟨⟨Status.up, some now, 0⟩, now - lc, now,
        checkTargetStep_success_down t s o now lc ha hs hc⟩
  · intro ha hs
    exact checkTargetStep_success_notDown t s o now ha hs

/-- C3 witness: a success in the reachable Down state after one failed
probe emits a Recovery event, and the first-ever success, from the initial
state itself (where `last_check` is still absent), emits nothing. -/
theorem recovery_iff_down_success_witness :
    (∃ (s' : TargetState) (d rt : Int),
        checkTargetStep ⟨200, 1⟩ ⟨Status.down, some 0, 1⟩ (Outcome.reachable 200) 7 =
          Except.ok (s', some (Event.recovery d rt))) ∧
    checkTargetStep ⟨200, 1⟩ initState (Outcome.reachable 200) 7 =
      Except.ok (⟨Status.up, some 7, 0⟩, none) := by
  constructor
  · exact (recovery_iff_down_success ⟨200, 1⟩ ⟨Status.down, some 0, 1⟩
      (Outcome.reachable 200) 7
      ⟨[(Outcome.unreachable, 0)],
        (⟨Status.down, some 0, 1⟩, [some (Event.down 0 1)]), rfl, rfl⟩).1.mpr
      ⟨rfl, rfl⟩
  · exact (recovery_iff_down_success ⟨200, 1⟩ initState (Outcome.reachable 200) 7
      ⟨[], (initState, []), rfl, rfl⟩).2 rfl (by decide)

/-- C4: `last_status` changes only via Unknown to Up, Unknown to Down,
Up to Down, Down to Up; a failed evaluation below the threshold leaves the
status unchanged and emits nothing; and a target whose failure runs never
reach `failure_threshold` never has status Down and never emits any
event. -/
theorem status_transitions (t : TargetCfg) :
    (∀ (s : TargetState) (o : Outcome) (now : Int) (s' : TargetState)
        (ev : Option Event), checkTargetStep t s o now = Except.ok (s', ev) →
        s'.last_status = s.last_status ∨
        (s.last_status = Status.unknown ∧ s'.last_status = Status.up) ∨
        (s.last_status = Status.unknown ∧ s'.last_status = Status.down) ∨
        (s.last_status = Status.up ∧ s'.last_status = Status.down) ∨
        (s.last_status = Status.down ∧ s'.last_status = Status.up)) ∧
    (∀ (s : TargetState) (o : Outcome) (now : Int), isAvailable t o = false →
        s.failures + 1 < t.failure_threshold →
        checkTargetStep t s o now =
          Except.ok (⟨s.last_status, some now, s.failures + 1⟩, none)) ∧
    (∀ (seq : List (Outcome × Int)) (s' : TargetState)
        (evs : List (Option Event)), failsBounded t 0 seq = true →
        runSteps t initState seq = Except.ok (s', evs) →
        s'.last_status ≠ Status.down ∧ ∀ ev ∈ evs, ev = none) := by
  refine ⟨?_, ?_, ?_⟩
  · intro s o now s' ev h
    by_cases ha : isAvailable t o = true
    · by_cases hs : s.last_status = Status.down
      · cases hc : s.last_check with
        | none =>
            rw [checkTargetStep, if_pos ha, if_pos hs, hc] at h
            exact absurd h (by simp)
        | some lc =>
            rw [checkTargetStep_success_down t s o now lc ha hs hc] at h
            simp only [Except.ok.injEq, Prod.mk.injEq] at h
            right; right; right; right
            exact ⟨hs, by rw [← h.1]⟩
      · rw [checkTargetStep_success_notDown t s o now ha hs] at h
        simp only [Except.ok.injEq, Prod.mk.injEq] at h
        cases hu : s.last_status with
        | unknown => right; left; exact ⟨rfl, by rw [← h.1]⟩
        | up => left; rw [← h.1]
        | down => exact absurd hu hs
    · rw [Bool.not_eq_true] at ha
      by_cases hn : t.failure_threshold ≤ s.failures + 1 ∧
          s.last_status ≠ Status.down
      · rw [checkTargetStep_fail_trigger t s o now ha hn.1 hn.2] at h
        simp only [Except.ok.injEq, Prod.mk.injEq] at h
        cases hu : s.last_status with
        | unknown => right; right; left; exact ⟨rfl, by rw [← h.1]⟩
        | up => right; right; right; left; exact ⟨rfl, by rw [← h.1]⟩
        | down => exact absurd hu hn.2
      · rw [checkTargetStep_fail_quiet t s o now ha hn] at h
        simp only [Except.ok.injEq, Prod.mk.injEq] at h
        left
        rw [← h.1]
  · intro s o now ha hlt
    exact checkTargetStep_fail_quiet t s o now ha (by omega)
  · intro seq s' evs hb h
    exact boundedRun_no_down t seq initState (by simp [initState]) hb s' evs h

/-- C4 witness: with threshold 3, two failures then a success never turn
the status Down and emit no event; and a single below-threshold failure
leaves the Unknown status unchanged. -/
theorem status_transitions_witness :
    ((⟨Status.up, some 30, 0⟩ : TargetState).last_status ≠ Status.down ∧
      ∀ ev ∈ ([none, none, none] : List (Option Event)), ev = none) ∧
    checkTargetStep ⟨200, 3⟩ initState Outcome.unreachable 10 =
      Except.ok (⟨Status.unknown, some 10, 1⟩, none) := by
  constructor
  · exact (status_transitions ⟨200, 3⟩).2.2
      [(Outcome.unreachable, 10), (Outcome.unreachable, 20), (Outcome.reachable 200, 30)]
      ⟨Status.up, some 30, 0⟩ [none, none, none] (by decide) rfl
  · exact (status_transitions ⟨200, 3⟩).2.1 initState Outcome.unreachable 10
      rfl (by decide)

/-- C5: a completed response with a status code different from
`expected_status_code` is classified and processed exactly like a transport
error: the probe reports unavailable, the whole evaluation coincides with
the transport-error evaluation, and the failures counter is incremented; in
particular a target expecting 204 that receives a 200 fails. -/
theorem wrong_code_equals_transport_failure (t : TargetCfg) (s : TargetState)
    (now : Int) (c : Nat) (h : c ≠ t.expected_status_code) :
    isAvailable t (Outcome.reachable c) = false ∧
    checkTargetStep t s (Outcome.reachable c) now =
      checkTargetStep t s Outcome.unreachable now ∧
    (∀ (s' : TargetState) (ev : Option Event),
        checkTargetStep t s (Outcome.reachable c) now = Except.ok (s', ev) →
        s'.failures = s.failures + 1) ∧
    isAvailable ⟨204, 3⟩ (Outcome.reachable 200) = false := by
  have hf : isAvailable t (Outcome.reachable c) = false := by
    simp [isAvailable, h]
  refine ⟨hf, ?_, ?_, by decide⟩
  · rw [checkTargetStep, checkTargetStep, hf]
    rfl
  · intro s' ev hstep
    have hfail := checkTargetStep_failures t s (Outcome.reachable c) now s' ev hstep
    rw [hf] at hfail
    simpa using hfail

/-- C5 witness: a target with `expected_status_code = 204` receiving a 200
response is evaluated exactly like a transport failure. -/
theorem wrong_code_equals_transport_failure_witness :
    checkTargetStep ⟨204, 3⟩ initState (Outcome.reachable 200) 0 =
      checkTargetStep ⟨204, 3⟩ initState Outcome.unreachable 0 :=
  (wrong_code_equals_transport_failure ⟨204, 3⟩ initState 0 200 (by decide)).2.1

/-- C6 counterexample: with threshold 1, failures at times 0 and 10 followed
by a success at time 20 report a downtime of 10 seconds, the time since the
previous evaluation; but `last_check` recorded at the moment the status
became Down was 0, and 20 - 0 is not 10. So the reported downtime is not the
time since the Down-confirming evaluation. -/
theorem recovery_downtime_counterexample :
    runSteps ⟨200, 1⟩ initState
        [(Outcome.unreachable, 0), (Outcome.unreachable, 10), (Outcome.reachable 200, 20)] =
      Except.ok (⟨Status.up, some 20, 0⟩,
        [some (Event.down 0 1), none, some (Event.recovery 10 20)]) ∧
    runSteps ⟨200, 1⟩ initState [(Outcome.unreachable, 0)] =
      Except.ok (⟨Status.down, some 0, 1⟩, [some (Event.down 0 1)]) ∧
    (10 : Int) ≠ 20 - 0 :=
  ⟨rfl, rfl, by decide⟩

/-- C6 (amended): every evaluation sets `last_check` to the current time
regardless of outcome, and the downtime in a Recovery event equals `now`
minus the stored `last_check`, i.e. the time elapsed since the evaluation
immediately preceding the recovery (not, in general, since the evaluation
that confirmed Down). -/
theorem last_check_updated_and_downtime (t : TargetCfg) (s : TargetState)
    (o : Outcome) (now : Int) (s' : TargetState) (ev : Option Event)
    (h : checkTargetStep t s o now = Except.ok (s', ev)) :
    s'.last_check = some now ∧
    (∀ d rt : Int, ev = some (Event.recovery d rt) →
      ∃ lc, s.last_check = some lc ∧ d = now - lc ∧ rt = now) := by
  refine ⟨checkTargetStep_lastCheck t s o now s' ev h, ?_⟩
  intro d rt hev
  subst hev
  by_cases ha : isAvailable t o = true
  · by_cases hs : s.last_status = Status.down
    · cases hc : s.last_check with
      | none =>
          rw [checkTargetStep, if_pos ha, if_pos hs, hc] at h
          exact absurd h (by simp)
      | some lc =>
          rw [checkTargetStep_success_down t s o now lc ha hs hc] at h
          simp only [Except.ok.injEq, Prod.mk.injEq, Option.some.injEq,
            Event.recovery.injEq] at h
          exact ⟨lc, rfl, h.2.1.symm, h.2.2.symm⟩
    · rw [checkTargetStep_success_notDown t s o now ha hs] at h
      simp at h
  · rw [Bool.not_eq_true] at ha
    by_cases hn : t.failure_threshold ≤ s.failures + 1 ∧ s.last_status ≠ Status.down
    · rw [checkTargetStep_fail_trigger t s o now ha hn.1 hn.2] at h
      simp at h
    · rw [checkTargetStep_fail_quiet t s o now ha hn] at h
      simp at h

/-- C6 witness: a recovery at time 20 from a state whose stored `last_check`
is 10 carries downtime 10 and the new `last_check` is 20. -/
theorem last_check_updated_and_downtime_witness :
    (⟨Status.up, some 20, 0⟩ : TargetState).last_check = some 20 ∧
    ∃ lc, (⟨Status.down, some 10, 2⟩ : TargetState).last_check = some lc ∧
      (10 : Int) = 20 - lc ∧ (20 : Int) = 20 := by
  have h := last_check_updated_and_downtime ⟨200, 1⟩ ⟨Status.down, some 10, 2⟩
    (Outcome.reachable 200) 20 ⟨Status.up, some 20, 0⟩
    (some (Event.recovery 10 20)) rfl
  exact ⟨h.1, h.2 10 20 rfl⟩

/-- C7: the notifier returns false on every delivery failure -- empty bot
token or chat id, a raised transport exception (all exceptions are caught),
or a non-200 response -- and its outcome never influences the target's
stored state or the emitted event: the state after a failed send equals the
state after a successful send. -/
theorem notifier_failure_safe :
    (∀ (token chatId : String) (tr : SendTransport), (token = "" ∨ chatId = "") →
        send_telegram_message token chatId tr = false) ∧
    (∀ (token chatId m : String),
        send_telegram_message token chatId (SendTransport.exception m) = false) ∧
    (∀ (token chatId txt : String) (c : Nat), c ≠ 200 →
        send_telegram_message token chatId (SendTransport.response c txt) = false) ∧
    (∀ (t : TargetCfg) (token token2 chatId chatId2 : String)
        (tr tr2 : SendTransport) (s : TargetState) (o : Outcome) (now : Int),
        (checkTargetNotify t token chatId tr s o now).map (fun r => (r.1, r.2.1)) =
          (checkTargetNotify t token2 chatId2 tr2 s o now).map (fun r => (r.1, r.2.1))) := by
  refine ⟨?_, ?_, ?_, ?_⟩
  · intro token chatId tr he
    simp [send_telegram_message, he]
  · intro token chatId m
    by_cases he : token = "" ∨ chatId = ""
    · simp [send_telegram_message, he]
    · simp [send_telegram_message, he]
  · intro token chatId txt c hc
    by_cases he : token = "" ∨ chatId = ""
    · simp [send_telegram_message, he]
    · simp [send_telegram_message, he, hc]
  · intro t token token2 chatId chatId2 tr tr2 s o now
    cases h : checkTargetStep t s o now with
    | error e => simp [checkTargetNotify, h, Except.map]
    | ok p =>
        obtain ⟨s1, ev⟩ := p
        cases ev with
        | none => simp [checkTargetNotify, h, Except.map]
        | some e => simp [checkTargetNotify, h, Except.map]

/-- C7 witness: a send with missing credentials and a send answered with a
500 response both return false, and the evaluation state is identical under
a 500 response and a 200 response. -/
theorem notifier_failure_safe_witness :
    send_telegram_message "" "42" (SendTransport.response 200 "ok") = false ∧
    send_telegram_message "tok" "42" (SendTransport.response 500 "err") = false ∧
    (checkTargetNotify ⟨200, 1⟩ "tok" "42" (SendTransport.response 500 "err")
        initState Outcome.unreachable 0).map (fun r => (r.1, r.2.1)) =
      (checkTargetNotify ⟨200, 1⟩ "tok" "42" (SendTransport.response 200 "ok")
        initState Outcome.unreachable 0).map (fun r => (r.1, r.2.1)) :=
  ⟨notifier_failure_safe.1 "" "42" (SendTransport.response 200 "ok") (Or.inl rfl),
   notifier_failure_safe.2.2.1 "tok" "42" "err" 500 (by decide),
   notifier_failure_safe.2.2.2 ⟨200, 1⟩ "tok" "tok" "42" "42"
     (SendTransport.response 500 "err") (SendTransport.response 200 "ok")
     initState Outcome.unreachable 0⟩

/-- C8 counterexample: with threshold 1, a first failed probe at time 0
performs, in order, `last_check := 0`, `failures := 1`, the Down send, and
only then `last_status := "down"`; at the moment the send is attempted the
stored status is still Unknown, not the new Down status. -/
theorem send_before_status_commit_counterexample :
    evalActions ⟨200, 1⟩ initState Outcome.unreachable 0 =
      Except.ok [Action.setLastCheck 0, Action.setFailures 1,
        Action.send (Event.down 0 1), Action.setStatus Status.down] ∧
    checkTargetStep ⟨200, 1⟩ initState Outcome.unreachable 0 =
      Except.ok (⟨Status.down, some 0, 1⟩, some (Event.down 0 1)) ∧
    (applyActions initState [Action.setLastCheck 0, Action.setFailures 1]).last_status
      ≠ Status.down :=
  ⟨rfl, rfl, by decide⟩

/-- C8 (amended): the notification send is attempted before the new status
is committed. At the moment of any send the stored `last_status` is still
the pre-evaluation status; for a Down event the `failures` increment and the
`last_check` update are already committed at that moment, while for a
Recovery event the send happens before any state update. -/
theorem send_precedes_status_commit (t : TargetCfg) (s : TargetState)
    (o : Outcome) (now : Int) (acts : List Action)
    (h : evalActions t s o now = Except.ok acts) :
    ∀ (i : Nat) (hi : i < acts.length) (e : Event), acts[i] = Action.send e →
      (applyActions s (acts.take i)).last_status = s.last_status ∧
      (∀ (tm : Int) (f : Nat), e = Event.down tm f →
        (applyActions s (acts.take i)).failures = s.failures + 1 ∧
        (applyActions s (acts.take i)).last_check = some now) ∧
      (∀ d rt : Int, e = Event.recovery d rt → acts.take i = []) := by
  by_cases ha : isAvailable t o = true
  · by_cases hs : s.last_status = Status.down
    · cases hc : s.last_check with
      | none =>
          rw [evalActions, if_pos ha, if_pos hs, hc] at h
          exact absurd h (by simp)
      | some lc =>
          rw [evalActions, if_pos ha, if_pos hs, hc] at h
          simp only [Except.ok.injEq] at h
          subst h
          intro i hi e hsend
          match i, hi with
          | 0, hi =>
              simp only [List.getElem_cons_zero, Action.send.injEq] at hsend
              subst hsend
              refine ⟨rfl, ?_, ?_⟩
              · intro tm f he; cases he
              · intro d rt he; rfl
          | 1, hi => simp at hsend
          | 2, hi => simp at hsend
          | 3, hi => simp at hsend
    · rw [evalActions, if_pos ha, if_neg hs] at h
      simp only [Except.ok.injEq] at h
      subst h
      intro i hi e hsend
      match i, hi with
      | 0, hi => simp at hsend
      | 1, hi => simp at hsend
      | 2, hi => simp at hsend
  · rw [Bool.not_eq_true] at ha
    by_cases hn : t.failure_threshold ≤ s.failures + 1 ∧ s.last_status ≠ Status.down
    · rw [evalActions, ha, if_pos hn] at h
      simp only [Bool.false_eq_true, if_false, Except.ok.injEq] at h
      subst h
      intro i hi e hsend
      match i, hi with
      | 0, hi => simp at hsend
      | 1, hi => simp at hsend
      | 2, hi =>
          simp only [List.getElem_cons_succ, List.getElem_cons_zero,
            Action.send.injEq] at hsend
          subst hsend
          refine ⟨?_, ?_, ?_⟩
          · simp [applyActions, applyAction]
          · intro tm f he
            constructor
            · simp [applyActions, applyAction]
            · simp [applyActions, applyAction]
          · intro d rt he; cases he
      | 3, hi => simp at hsend
    · rw [evalActions, ha, if_neg hn] at h
      simp only [Bool.false_eq_true, if_false, Except.ok.injEq] at h
      subst h
      intro i hi e hsend
      match i, hi with
      | 0, hi => simp at hsend
      | 1, hi => simp at hsend

/-- C8 witness: at the Down send of a first failed probe (threshold 1, time
5), the stored status is still the initial Unknown status. -/
theorem send_precedes_status_commit_witness :
    (applyActions initState ([Action.setLastCheck 5, Action.setFailures 1,
        Action.send (Event.down 5 1), Action.setStatus Status.down].take 2)).last_status
      = initState.last_status :=
  (send_precedes_status_commit ⟨200, 1⟩ initState Outcome.unreachable 5
    [Action.setLastCheck 5, Action.setFailures 1,
      Action.send (Event.down 5 1), Action.setStatus Status.down] rfl
    2 (by decide) (Event.down 5 1) rfl).1

/-- C9 counterexample: an exception that is not a `requests.RequestException`
raised during a single target's evaluation is not caught and classified (it
propagates as an error instead of incrementing the counter), and the run
loop then terminates without any external interrupt. -/
theorem exception_terminates_loop_counterexample :
    checkTargetExn ⟨200, 3⟩ initState ProbeResult.otherException 0 =
      Except.error () ∧
    runLoop ⟨200, 3⟩ initState [Tick.pass ProbeResult.otherException 0] =
      (initState, some RunExit.errorExit) :=
  ⟨rfl, rfl⟩

/-- C9 (amended): a `requests.RequestException` raised while probing is
caught and classified as a failed probe contributing one to the failures
counter, and the loop continues past it; an exception of any other class
propagates out of the target's evaluation, after which the run loop logs it
and terminates -- so the loop stops on an external interrupt or on such a
propagated per-target error. -/
theorem request_exception_classified (t : TargetCfg) (s : TargetState)
    (now : Int) (rest : List Tick) :
    checkTargetExn t s ProbeResult.requestException now =
      checkTargetStep t s Outcome.unreachable now ∧
    (∀ (s' : TargetState) (ev : Option Event),
        checkTargetExn t s ProbeResult.requestException now = Except.ok (s', ev) →
        s'.failures = s.failures + 1) ∧
    checkTargetExn t s ProbeResult.otherException now = Except.error () ∧
    runLoop t s (Tick.interrupt :: rest) = (s, some RunExit.interrupted) ∧
    runLoop t s (Tick.pass ProbeResult.otherException now :: rest) =
      (s, some RunExit.errorExit) ∧
    (∀ (s' : TargetState) (ev : Option Event),
        checkTargetStep t s Outcome.unreachable now = Except.ok (s', ev) →
        runLoop t s (Tick.pass ProbeResult.requestException now :: rest) =
          runLoop t s' rest) := by
  refine ⟨rfl, ?_, rfl, rfl, rfl, ?_⟩
  · intro s' ev h
    have hf := checkTargetStep_failures t s Outcome.unreachable now s' ev h
    simpa using hf
  · intro s' ev h
    rw [runLoop]
    simp [checkTargetExn, h]

/-- C9 witness: a `RequestException` on the first evaluation is classified
as a failure (counter becomes 1) and the loop proceeds. -/
theorem request_exception_classified_witness :
    (⟨Status.unknown, some (0 : Int), 1⟩ : TargetState).failures =
        initState.failures + 1 ∧
    runLoop ⟨200, 3⟩ initState [Tick.pass ProbeResult.requestException 0] =
      runLoop ⟨200, 3⟩ ⟨Status.unknown, some 0, 1⟩ [] := by
  have h := request_exception_classified ⟨200, 3⟩ initState 0 []
  exact ⟨h.2.1 ⟨Status.unknown, some 0, 1⟩ none rfl,
    h.2.2.2.2.2 ⟨Status.unknown, some 0, 1⟩ none rfl⟩

/-- C10: in every state reachable from initialization, a target whose
status is Down has a recorded `last_check` timestamp, so the downtime
subtraction on recovery never operates on an absent timestamp: no
evaluation from a reachable state can fault. -/
theorem down_implies_last_check (t : TargetCfg) (s : TargetState)
    (h : Reachable t s) :
    (s.last_status = Status.down → ∃ c, s.last_check = some c) ∧
    (∀ (o : Outcome) (now : Int), checkTargetStep t s o now ≠ Except.error ()) := by
  refine ⟨reachable_down_has_check t s h, ?_⟩
  intro o now herr
  rw [checkTargetStep_error_iff] at herr
  obtain ⟨-, hd, hn⟩ := herr
  obtain ⟨c, hc⟩ := reachable_down_has_check t s h hd
  rw [hc] at hn
  cases hn

/-- C10 witness: the Down state reached by one failed probe at threshold 1
has a recorded timestamp. -/
theorem down_implies_last_check_witness :
    ∃ c, (⟨Status.down, some (0 : Int), 1⟩ : TargetState).last_check = some c :=
  (down_implies_last_check ⟨200, 1⟩ ⟨Status.down, some 0, 1⟩
    ⟨[(Outcome.unreachable, 0)], (⟨Status.down, some 0, 1⟩, [some (Event.down 0 1)]),
      rfl, rfl⟩).1 rfl

end Monitor
